import Mathlib

/-!
Shallow embedding of the corvus utility library.

Each definition below translates one Python function of the repository
into Lean.  External effects (the filesystem, subprocesses, the network,
the Docker daemon) are passed in as explicit function parameters, so the
embedded functions are pure and executable.  Python exceptions are
modelled with `Except`; a `None`-able Python value becomes `Option`.
-/

namespace Corvus

/-- Result of a finished subprocess: exit code plus raw stdout and stderr.
Models `subprocess.CompletedProcess` and, equally, the dictionary that
`corvus.cmd.get_cmd_output` builds from one. -/
structure CmdResult where
  rc : Int
  stdout : String
  stderr : String
  deriving DecidableEq

/-- Python exceptions raised by the embedded corvus functions. -/
inductive PyError where
  | calledProcessError (cmd : String) (rc : Int)
  | notAGitRepository (dir_target : String)
  | gitUnexpectedError (error_msg : String) (dir_target : String)
  | badConfigurationFile (error_msg : String) (dir_target : String)
  | missingConfigurationFile (error_msg : String) (filename : String)
  | requestException (url : String)
  | nameError
  | osError
  deriving DecidableEq

/-- Whitespace characters removed by Python `str.strip()`
(space, tab, newline, carriage return, vertical tab, form feed). -/
def isPySpace (c : Char) : Bool :=
  c == ' ' || c == Char.ofNat 9 || c == Char.ofNat 10 || c == Char.ofNat 13 ||
    c == Char.ofNat 11 || c == Char.ofNat 12

/-- Python `str.strip()`: drop leading and trailing whitespace. -/
def pyStrip (s : String) : String :=
  String.mk (((s.data.dropWhile isPySpace).reverse.dropWhile isPySpace).reverse)

/-- Python `str.upper()` restricted to ASCII, as used on config prefixes. -/
def pyUpper (s : String) : String :=
  String.mk (s.data.map Char.toUpper)

/-- Python `str.split(sep)` for a one-character separator, on char lists.
`split` always yields one more piece than there are separators, so the
empty string gives `[[]]`. -/
def splitOnChar (sep : Char) : List Char → List (List Char)
  | [] => [[]]
  | c :: cs =>
    if c = sep then [] :: splitOnChar sep cs
    else
      match splitOnChar sep cs with
      | [] => [[c]]
      | g :: gs => (c :: g) :: gs

/-- Python `str.split(sep)` for a one-character separator, on strings. -/
def pySplit (sep : Char) (s : String) : List String :=
  (splitOnChar sep s.data).map String.mk

/-- Python `needle in haystack` on strings (substring containment). -/
def containsSub (haystack needle : String) : Bool :=
  (List.range (haystack.data.length + 1)).any
    (fun i => decide ((haystack.data.drop i).take needle.data.length = needle.data))

/-! ### corvus.monitoring

`has_stabilized_hash` polls `get_xxhash32(filename)` once per loop
iteration, sleeping one second between reads.  The digest returned by the
t-th poll is modelled by a stream `hashes : Nat → String`, and the
unbounded Python `while` loop is run under a fuel bound `steps`: the
result is `none` when the loop has not exited within `steps` iterations.
-/

/-- One-to-one translation of the `while max_seconds != 0` loop body of
`corvus.monitoring.has_stabilized_hash`: check the loop condition, read
`new = get_xxhash32(filename)` (the digest of poll `t`), return `True`
when it equals the previous digest `old`, otherwise remember it, sleep,
decrement `max_seconds` and continue. -/
def runPoll (hashes : Nat → String) : Nat → Option String → Int → Nat → Option Bool
  | 0, _, _, _ => none
  | steps + 1, old, max_seconds, t =>
    if max_seconds = 0 then some false
    else if some (hashes t) = old then some true
    else runPoll hashes steps (some (hashes t)) (max_seconds - 1) (t + 1)

/-- `corvus.monitoring.has_stabilized_hash`: start the polling loop with
`old = None` at poll `0`, under fuel `steps`. -/
def has_stabilized_hash (hashes : Nat → String) (max_seconds : Int) (steps : Nat) : Option Bool :=
  runPoll hashes steps none max_seconds 0

/-! ### corvus.cmd -/

/-- `subprocess.run(cmd, shell=True, capture_output=True, text=True, check=check)`:
the behaviour of the shell is a parameter `world` mapping each command
string to its completed process.  With `check` set, a nonzero exit code
raises `subprocess.CalledProcessError`. -/
def subprocess_run (world : String → CmdResult) (cmd : String) (check : Bool) :
    Except PyError CmdResult :=
  let proc := world cmd
  if check ∧ proc.rc ≠ 0 then Except.error (PyError.calledProcessError cmd proc.rc)
  else Except.ok proc

/-- `corvus.cmd.get_cmd_output`: run the command with `check=True` and
return the dictionary with the return code and the stripped stdout and
stderr. -/
def get_cmd_output (world : String → CmdResult) (cmd : String) : Except PyError CmdResult :=
  match subprocess_run world cmd true with
  | Except.error e => Except.error e
  | Except.ok proc =>
      Except.ok { rc := proc.rc, stdout := pyStrip proc.stdout, stderr := pyStrip proc.stderr }

/-! ### corvus.misc: git metadata -/

/-- Branch and commit hash dictionary returned by `current_git_commit`. -/
structure GitInfo where
  commit : String
  branch : String
  deriving DecidableEq

/-- The shell command `git -C {dir_target} describe --always`. -/
def git_describe_cmd (dir_target : String) : String :=
  "git -C " ++ dir_target ++ " describe --always"

/-- The shell command `git -C {dir_target} rev-parse --abbrev-ref HEAD`. -/
def git_rev_parse_cmd (dir_target : String) : String :=
  "git -C " ++ dir_target ++ " rev-parse --abbrev-ref HEAD"

/-- The `if dir_target == "": dir_target = os.getcwd()` defaulting at the
top of `current_git_commit`; `cwd` models `os.getcwd()`. -/
def effective_dir (dir_target cwd : String) : String :=
  if dir_target = "" then cwd else dir_target

/-- `corvus.misc.current_git_commit`: run `git describe` and
`git rev-parse` through `get_cmd_output`, raising `NotAGitRepository`
when a nonzero return code comes with the `fatal: not a git repository`
marker on stderr, `GitUnexpectedError` on any other nonzero return code,
and returning the commit/branch dictionary otherwise. -/
def current_git_commit (world : String → CmdResult) (dir_target cwd : String) :
    Except PyError GitInfo :=
  match get_cmd_output world (git_describe_cmd (effective_dir dir_target cwd)) with
  | Except.error e => Except.error e
  | Except.ok describe =>
    if ¬ describe.rc = 0 ∧ containsSub describe.stderr "fatal: not a git repository" = true then
      Except.error (PyError.notAGitRepository (effective_dir dir_target cwd))
    else if ¬ describe.rc = 0 then
      Except.error (PyError.gitUnexpectedError describe.stderr (effective_dir dir_target cwd))
    else
      match get_cmd_output world (git_rev_parse_cmd (effective_dir dir_target cwd)) with
      | Except.error e => Except.error e
      | Except.ok rev_parse =>
        if ¬ rev_parse.rc = 0 ∧
            containsSub rev_parse.stderr "fatal: not a git repository" = true then
          Except.error (PyError.notAGitRepository (effective_dir dir_target cwd))
        else if ¬ rev_parse.rc = 0 then
          Except.error (PyError.gitUnexpectedError rev_parse.stderr (effective_dir dir_target cwd))
        else
          Except.ok { commit := describe.stdout, branch := rev_parse.stdout }

/-! ### corvus.misc: configuration discovery

The filesystem, the environment and `json.load` are a parameter record;
`parseJson` returns `none` when the file content does not parse as JSON.
-/

/-- Environment of `discover_config`: directory test, file reading
(`none` models an `IOError` on `open`/`read`), environment variables,
`os.path.abspath(os.curdir)`, `os.path.expanduser("~")` and `json.load`
(`none` models a parse failure). -/
structure FsEnv (α : Type) where
  isdir : String → Bool
  readFile : String → Option String
  env : String → Option String
  cwd : String
  home : String
  parseJson : String → Option α

/-- `os.path.join(dir, file)` for a directory that does not end in a
separator. -/
def joinPath (dir file : String) : String := dir ++ "/" ++ file

/-- `os.path.basename`: the part after the last `/`. -/
def basenameOf (p : String) : String := (pySplit '/' p).getLastD ""

/-- The root part of `os.path.splitext`: cut at the last dot, unless that
dot is at the start or everything before it is dots (CPython keeps
leading-dot names whole). -/
def splitextRoot (base : String) : String :=
  let cs := base.data
  match ((List.range cs.length).filter (fun i => cs.getD i ' ' == '.')).getLast? with
  | none => base
  | some i =>
    if 0 < i ∧ ¬ (List.range i).all (fun j => cs.getD j ' ' == '.') then
      String.mk (cs.take i)
    else base

/-- The `prefix` computed by `discover_config`: the extensionless
basename of `name` when `use_prefix` is set, the empty string otherwise. -/
def pref_of (name : String) (use_pref : Bool) : String :=
  if use_pref then splitextRoot (basenameOf name) else ""

/-- The `file_name` that `discover_config` looks for:
`{prefix}.cfg.json` when `use_prefix` is set, `name` itself otherwise. -/
def fname_of (name : String) (use_pref : Bool) : String :=
  if use_pref then pref_of name use_pref ++ ".cfg.json" else name

/-- The fixed candidate tuple of `discover_config` — the `location`
argument, the `{PREFIX}_CONFIG` environment directory (`or ""` when
unset), the current working directory, the home directory,
`~/.local/share/{prefix}` and `/etc/{prefix}` — filtered down to
existing directories. -/
def config_locations (fs : FsEnv α) (name : String) (use_pref : Bool) (location : String) :
    List String :=
  ([location,
    (fs.env (pyUpper (pref_of name use_pref) ++ "_CONFIG")).getD "",
    fs.cwd,
    fs.home,
    fs.home ++ "/.local/share/" ++ pref_of name use_pref,
    "/etc/" ++ pref_of name use_pref]).filter fs.isdir

/-- The `for location in locations` loop of `discover_config`: open the
candidate file in each location in turn (an `IOError` moves on to the
next location), parse the first one that opens, raise
`BadConfigurationFile` right there when parsing fails, and raise
`MissingConfigurationFile` when every location was exhausted. -/
def probe_locations (fs : FsEnv α) (fname : String) : List String → Except PyError α
  | [] => Except.error (PyError.missingConfigurationFile "Configuration file not found" fname)
  | loc :: rest =>
    match fs.readFile (joinPath loc fname) with
    | none => probe_locations fs fname rest
    | some contents =>
      match fs.parseJson contents with
      | some config => Except.ok config
      | none =>
        Except.error (PyError.badConfigurationFile
          ("Failed to parse configuration file: " ++ joinPath loc fname)
          (joinPath loc fname))

/-- `corvus.misc.discover_config`. -/
def discover_config (fs : FsEnv α) (name : String) (use_pref : Bool) (location : String) :
    Except PyError α :=
  probe_locations fs (fname_of name use_pref) (config_locations fs name use_pref location)

/-! ### corvus.misc: heartbeat ping -/

/-- `requests.get(url, timeout=10)`: the network is a parameter `net`
telling which URLs respond; a non-responding URL raises
`requests.RequestException`. -/
def requests_get (net : String → Bool) (url : String) : Except PyError Unit :=
  if net url then Except.ok () else Except.error (PyError.requestException url)

/-- The `hc_url` built by `ping_healthchecks`:
`https://hc-ping.com/{uuid}{'/' + status if status else ''}`. -/
def hc_url_of (uuid status : String) : String :=
  "https://hc-ping.com/" ++ uuid ++ (if status ≠ "" then "/" ++ status else "")

/-- `corvus.misc.ping_healthchecks`: reject unknown non-empty statuses
without any request, otherwise issue exactly one GET to the
healthchecks endpoint, catching (and only logging) a
`requests.RequestException`.  The returned list holds the URLs actually
requested. -/
def ping_healthchecks (net : String → Bool) (uuid status : String) :
    Except PyError (List String) :=
  if status ≠ "" ∧ ¬ (status = "start" ∨ status = "fail") then Except.ok []
  else
    match requests_get net (hc_url_of uuid status) with
    | Except.ok _ => Except.ok [hc_url_of uuid status]
    | Except.error (PyError.requestException _) => Except.ok [hc_url_of uuid status]
    | Except.error e => Except.error e

/-! ### corvus.database -/

/-- `corvus.database.parse_pgpass`: read the file with the ascii codec
(`readF` returns `none` for an unreadable file; a non-ascii byte raises
`UnicodeDecodeError`), strip it, split on colons, and unpack exactly
five fields.  Every failure is caught by the blanket `except Exception`
and turns into the empty dictionary. -/
def parse_pgpass (readF : String → Option String) (path : String) : List (String × String) :=
  match readF path with
  | none => []
  | some contents =>
    if contents.data.all (fun c => decide (c.toNat < 128)) then
      match pySplit ':' (pyStrip contents) with
      | [a, b, c, d, e] =>
        [("db_host", a), ("db_port", b), ("db_name", c), ("db_user", d), ("db_password", e)]
      | _ => []
    else []

/-- A Python object in the ORM model: an attribute-name/value
association list; `getattr` reads the first binding. -/
abbrev Row := List (String × String)

/-- The ORM-mapped table: a list of rows. -/
abbrev Table := List Row

/-- Python `getattr(row, a)` on the attribute list model. -/
def getattr : Row → String → Option String
  | [], _ => none
  | p :: rest, a => if p.1 = a then some p.2 else getattr rest a

/-- Python `setattr(row, a, v)`: rebind the first binding of `a`, or add
one when the attribute is absent. -/
def setattr : Row → String → String → Row
  | [], a, v => [(a, v)]
  | p :: rest, a, v => if p.1 = a then (p.1, v) :: rest else p :: setattr rest a v

/-- The `for key in attributes: setattr(instance, key, attributes[key])`
loop of `upsert_orm`. -/
def apply_attrs (row : Row) (attributes : List (String × String)) : Row :=
  attributes.foldl (fun r kv => setattr r kv.1 kv.2) row

/-- The primary-key criterion of the `SELECT` in `upsert_orm`:
`getattr(orm_cls, pkey.attribute) == pkey.value`. -/
def pkMatches (pkattr pkval : String) (row : Row) : Bool :=
  decide (getattr row pkattr = some pkval)

/-- Committing an `UPDATE` of the single instance the `SELECT` returned:
replace the first row satisfying the criterion. -/
def updateFirst (p : Row → Bool) (f : Row → Row) : Table → Table
  | [] => []
  | r :: rs => if p r then f r :: rs else r :: updateFirst p f rs

/-- `corvus.database.upsert_orm`: `SELECT ... WHERE pkey = value` via
`.filter(...).first()`; when a row is found, set the attributes on it
and commit (an `UPDATE`), otherwise build `orm_cls(**{pkey.attribute:
pkey.value})`, set the attributes and commit (an `INSERT`).  The second
component is `getattr(instance, pkey.attribute)` read back after
`session.refresh`. -/
def upsert_orm (table : Table) (pkattr pkval : String)
    (attributes : List (String × String)) : Table × Option String :=
  match table.find? (pkMatches pkattr pkval) with
  | some row =>
    (updateFirst (pkMatches pkattr pkval) (fun r => apply_attrs r attributes) table,
     getattr (apply_attrs row attributes) pkattr)
  | none =>
    (table ++ [apply_attrs [(pkattr, pkval)] attributes],
     getattr (apply_attrs [(pkattr, pkval)] attributes) pkattr)

/-! ### corvus.cdocker -/

/-- Errors of the Docker SDK: `docker.errors.ImageNotFound` and any
other `docker.errors.APIError`. -/
inductive DockerError where
  | imageNotFound
  | apiError (msg : String)
  deriving DecidableEq

/-- The image reference `f"{name}:{tag or 'latest'}"`. -/
def image_ref (name tag : String) : String :=
  name ++ ":" ++ (if tag = "" then "latest" else tag)

/-- `corvus.cdocker.image_exists`: ask the daemon (`dclient.images.get`)
for the reference, translate `ImageNotFound` into `False`, anything else
propagates. -/
def image_exists (daemon : String → Except DockerError Unit) (name tag : String) :
    Except DockerError Bool :=
  match daemon (image_ref name tag) with
  | Except.ok _ => Except.ok true
  | Except.error DockerError.imageNotFound => Except.ok false
  | Except.error e => Except.error e

/-! ### corvus.cmd.make_path_comment -/

/-- The `try` block of `make_path_comment`: `os.stat(path).st_size`
(`statSize` returns `none` when `stat` raises), `format_size`
(parameter `fmtSize`), the magic description read only under
`work_magic` (`magicRead` returns `none` when the `open`/`read`
raises), then the f-string — whose reference to the local variable
`description` raises `NameError` when no assignment to it ran — and the
optional caller prefixing. -/
def make_path_comment_try (statSize : String → Option Nat) (fmtSize : Nat → String)
    (magicRead : String → Option String) (path message : String)
    (work_magic caller_funcname : Bool) (callerName : String) : Except PyError String :=
  match statSize path with
  | none => Except.error PyError.osError
  | some size_bytes =>
    let size := fmtSize size_bytes
    match (if work_magic then
             match magicRead path with
             | some d => Except.ok (some d)
             | none => Except.error PyError.osError
           else Except.ok none : Except PyError (Option String)) with
    | Except.error e => Except.error e
    | Except.ok none => Except.error PyError.nameError
    | Except.ok (some description) =>
      let output := message ++ " (" ++ size ++ ", " ++ description ++ "): " ++ path
      Except.ok (if caller_funcname then "(" ++ callerName ++ ") " ++ output else output)

/-- `corvus.cmd.make_path_comment`: the `except Exception` handler logs
the error and replaces the output with the empty string. -/
def make_path_comment (statSize : String → Option Nat) (fmtSize : Nat → String)
    (magicRead : String → Option String) (path message : String)
    (work_magic caller_funcname : Bool) (callerName : String) : String :=
  match make_path_comment_try statSize fmtSize magicRead path message
      work_magic caller_funcname callerName with
  | Except.ok out => out
  | Except.error _ => ""

/-! ### Concrete instances used by witnesses -/

/-- A digest stream that alternates between two values, so no two
consecutive polls ever agree. -/
def altHashes : Nat → String := fun n => if n % 2 = 0 then "a" else "b"

/-! ### Lemmas about the polling loop -/

/-- Invariant characterization of the running loop: from poll `t ≥ 1`
onward, with `old` holding the digest of poll `t - 1` and `max_seconds`
counted down to `m0 - t`, the loop reports `True` within `steps` more
iterations exactly when some poll `s ∈ [t, t + steps)` reachable under
the countdown repeats the digest of poll `s - 1`. -/
theorem runPoll_true_iff_aux (hashes : Nat → String) (m0 : Int) :
    ∀ (steps t : Nat), 1 ≤ t →
      (runPoll hashes steps (some (hashes (t - 1))) (m0 - t) t = some true ↔
        ∃ s, t ≤ s ∧ s < t + steps ∧ (∀ j : Nat, t ≤ j → j ≤ s → m0 ≠ (j : Int)) ∧
          hashes s = hashes (s - 1)) := by
  intro steps
  induction steps with
  | zero =>
    intro t ht
    simp only [runPoll]
    constructor
    · intro h; exact Option.noConfusion h
    · rintro ⟨s, hts, hst, -, -⟩
      exact absurd hst (by omega)
  | succ n ih =>
    intro t ht
    simp only [runPoll]
    by_cases hm : m0 - (t : Int) = 0
    · rw [if_pos hm]
      constructor
      · intro h; simp at h
      · rintro ⟨s, hts, hst, hj, -⟩
        exact absurd (by omega : m0 = (t : Int)) (hj t le_rfl hts)
    · rw [if_neg hm]
      by_cases heq : hashes t = hashes (t - 1)
      · rw [if_pos (by rw [heq])]
        constructor
        · intro _
          refine ⟨t, le_rfl, by omega, ?_, heq⟩
          intro j h1 h2
          have hjt : j = t := le_antisymm h2 h1
          subst hjt
          omega
        · intro _; rfl
      · rw [if_neg (by simpa using heq)]
        have ih2 := ih (t + 1) (by omega)
        rw [Nat.add_sub_cancel] at ih2
        rw [show m0 - (t : Int) - 1 = m0 - ((t + 1 : Nat) : Int) by push_cast; ring]
        rw [ih2]
        constructor
        · rintro ⟨s, h1, h2, h3, h4⟩
          refine ⟨s, by omega, by omega, ?_, h4⟩
          intro j hj1 hj2
          rcases Nat.eq_or_lt_of_le hj1 with h | h
          · subst h; omega
          · exact h3 j (by omega) hj2
        · rintro ⟨s, h1, h2, h3, h4⟩
          have hst : s ≠ t := by
            intro hc; subst hc; exact heq h4
          exact ⟨s, by omega, by omega, fun j hj1 hj2 => h3 j (by omega) hj2, h4⟩

/-- Top-level characterization: `has_stabilized_hash` reports `True`
within `steps` iterations exactly when some poll `s ≥ 1` inside both the
fuel and the `max_seconds` countdown repeats the previous digest. -/
theorem has_stabilized_true_iff (hashes : Nat → String) (m : Int) (steps : Nat) :
    has_stabilized_hash hashes m steps = some true ↔
      ∃ s, 1 ≤ s ∧ s < steps ∧ (m < 0 ∨ (s : Int) < m) ∧ hashes s = hashes (s - 1) := by
  unfold has_stabilized_hash
  cases steps with
  | zero =>
    simp only [runPoll]
    constructor
    · intro h; exact Option.noConfusion h
    · rintro ⟨s, h1, h2, -, -⟩; exact absurd h2 (by omega)
  | succ n =>
    simp only [runPoll]
    by_cases hm : m = 0
    · rw [if_pos hm]
      constructor
      · intro h; simp at h
      · rintro ⟨s, h1, h2, h3, -⟩
        exfalso
        rcases h3 with h3 | h3 <;> omega
    · rw [if_neg hm]
      rw [if_neg (by simp : ¬ (some (hashes 0) = none))]
      have aux := runPoll_true_iff_aux hashes m n 1 le_rfl
      simp only [Nat.sub_self, Nat.cast_one] at aux
      rw [aux]
      constructor
      · rintro ⟨s, h1, h2, h3, h4⟩
        refine ⟨s, h1, by omega, ?_, h4⟩
        by_contra hc
        push_neg at hc
        obtain ⟨hge, hle⟩ := hc
        exact absurd (by omega : m = ((m.toNat : Nat) : Int))
          (h3 m.toNat (by omega) (by omega))
      · rintro ⟨s, h1, h2, h3, h4⟩
        refine ⟨s, h1, by omega, ?_, h4⟩
        intro j hj1 hj2
        rcases h3 with h3 | h3 <;> omega

/-- A non-negative `max_seconds` below the fuel always yields a result:
the loop exits within `max_seconds` polling iterations. -/
theorem runPoll_isSome (hashes : Nat → String) :
    ∀ (steps : Nat) (old : Option String) (m : Int) (t : Nat), 0 ≤ m → m < (steps : Int) →
      (runPoll hashes steps old m t).isSome = true := by
  intro steps
  induction steps with
  | zero =>
    intro old m t h1 h2
    exact absurd h2 (by omega)
  | succ n ih =>
    intro old m t h1 h2
    simp only [runPoll]
    by_cases hm : m = 0
    · rw [if_pos hm]; rfl
    · rw [if_neg hm]
      by_cases heq : some (hashes t) = old
      · rw [if_pos heq]; rfl
      · rw [if_neg heq]
        exact ih (some (hashes t)) (m - 1) (t + 1) (by omega) (by omega)

/-! ### Claims C1 and C2 -/

/-- C1: for every digest stream, timeout and fuel, `has_stabilized_hash`
returns `True` exactly when two consecutive polls — some poll `s ≥ 1`
inside the fuel and the `max_seconds` countdown, and its predecessor
`s - 1` taken one second earlier — produce equal xxhash32 digests.  The
bound `1 ≤ s` in the right-hand side is precisely the statement that a
single digest read can never produce `True`: the very first read is
compared against `old = None`, which no digest string equals. -/
theorem C1_has_stabilized_hash_true_iff (hashes : Nat → String) (m : Int) (steps : Nat) :
    has_stabilized_hash hashes m steps = some true ↔
      ∃ s, 1 ≤ s ∧ s < steps ∧ (m < 0 ∨ (s : Int) < m) ∧ hashes s = hashes (s - 1) :=
  has_stabilized_true_iff hashes m steps

/-- C2 counterexample: the claim quantifies over every value of
`max_seconds`, but with the default `max_seconds = -1` the condition
`while max_seconds != 0` never fails, so the loop is unbounded.  On an
alternating digest stream that never stabilizes, five polling
iterations with `max_seconds = -1` produce neither `False` nor any
other result — the loop is still running past every purported
`max_seconds` bound. -/
theorem C2_counterexample_unbounded :
    has_stabilized_hash altHashes (-1) 5 = none := by decide

/-- C2 (amended): for every non-negative `max_seconds = m`, the loop
performs at most `m` one-second polling iterations — fuel `m + 1`
already suffices for it to exit — and it returns `False` whenever no
poll `s` with `1 ≤ s < m` repeats the digest of poll `s - 1`, i.e. when
the digest has not stabilized within the bound.  (With a negative
`max_seconds`, such as the default `-1`, the loop instead polls without
bound, as the counterexample shows.) -/
theorem C2_bounded_polling (hashes : Nat → String) (m : Nat) :
    (has_stabilized_hash hashes (m : Int) (m + 1)).isSome = true ∧
      ((∀ s, s < m → 1 ≤ s → hashes s ≠ hashes (s - 1)) →
        has_stabilized_hash hashes (m : Int) (m + 1) = some false) := by
  have hsome : (has_stabilized_hash hashes (m : Int) (m + 1)).isSome = true :=
    runPoll_isSome hashes (m + 1) none (m : Int) 0 (by omega) (by omega)
  refine ⟨hsome, fun hns => ?_⟩
  have hiff := has_stabilized_true_iff hashes (m : Int) (m + 1)
  rcases ho : has_stabilized_hash hashes (m : Int) (m + 1) with _ | b
  · rw [ho] at hsome; simp at hsome
  · cases b
    · rfl
    · exfalso
      rw [ho] at hiff
      rcases hiff.mp rfl with ⟨s, h1, h2, h3, h4⟩
      have hs : s < m := by rcases h3 with h3 | h3 <;> omega
      exact hns s hs h1 h4

/-- Witness for C2 at `max_seconds = 2` on the alternating digest
stream: the loop exits with `False` within the bound. -/
theorem C2_bounded_polling_witness :
    has_stabilized_hash altHashes ((2 : Nat) : Int) (2 + 1) = some false :=
  (C2_bounded_polling altHashes 2).2 (by decide)

/-! ### Claims C3 and C4 -/

/-- A shell in which every command exits with code 1. -/
def worldFail : String → CmdResult :=
  fun _ => { rc := 1, stdout := " out ", stderr := " err " }

/-- Behaviour of `get_cmd_output` under `check=True`: the dictionary is
returned only for a zero exit code; a nonzero exit code raises
`subprocess.CalledProcessError` instead. -/
theorem get_cmd_output_eq (world : String → CmdResult) (cmd : String) :
    get_cmd_output world cmd =
      if (world cmd).rc = 0 then
        Except.ok { rc := (world cmd).rc, stdout := pyStrip (world cmd).stdout,
                    stderr := pyStrip (world cmd).stderr }
      else Except.error (PyError.calledProcessError cmd (world cmd).rc) := by
  unfold get_cmd_output subprocess_run
  by_cases h : (world cmd).rc = 0
  · simp [h]
  · simp [h]

/-- C3 counterexample: on a command exiting with code 1,
`get_cmd_output` does not return any dictionary — `check=True` makes
`subprocess.run` raise `CalledProcessError`, which propagates — refuting
the claim that the dictionary is returned "including when the command
exits with a nonzero code". -/
theorem C3_counterexample_nonzero_raises :
    get_cmd_output worldFail "false" =
      Except.error (PyError.calledProcessError "false" 1) := by
  rw [get_cmd_output_eq]
  rfl

/-- C3 (amended): `get_cmd_output` runs the command and returns the
dictionary with the exit code under `rc` and the whitespace-stripped
stdout and stderr — but only when the command exits with code zero; for
every nonzero exit code it raises `subprocess.CalledProcessError`
instead of returning. -/
theorem C3_get_cmd_output (world : String → CmdResult) (cmd : String) :
    get_cmd_output world cmd =
      if (world cmd).rc = 0 then
        Except.ok { rc := (world cmd).rc, stdout := pyStrip (world cmd).stdout,
                    stderr := pyStrip (world cmd).stderr }
      else Except.error (PyError.calledProcessError cmd (world cmd).rc) :=
  get_cmd_output_eq world cmd

/-- Case-split form of `current_git_commit`: each of the two
`get_cmd_output` calls either returns a dictionary with `rc = 0` or
raises `CalledProcessError`; the explicit `NotAGitRepository` and
`GitUnexpectedError` branches can never fire. -/
theorem current_git_commit_eq (world : String → CmdResult) (dir_target cwd : String) :
    current_git_commit world dir_target cwd =
      if (world (git_describe_cmd (effective_dir dir_target cwd))).rc = 0 then
        if (world (git_rev_parse_cmd (effective_dir dir_target cwd))).rc = 0 then
          Except.ok
            { commit := pyStrip (world (git_describe_cmd (effective_dir dir_target cwd))).stdout,
              branch := pyStrip (world (git_rev_parse_cmd (effective_dir dir_target cwd))).stdout }
        else
          Except.error (PyError.calledProcessError
            (git_rev_parse_cmd (effective_dir dir_target cwd))
            (world (git_rev_parse_cmd (effective_dir dir_target cwd))).rc)
      else
        Except.error (PyError.calledProcessError
          (git_describe_cmd (effective_dir dir_target cwd))
          (world (git_describe_cmd (effective_dir dir_target cwd))).rc) := by
  unfold current_git_commit
  simp only [get_cmd_output_eq]
  by_cases h1 : (world (git_describe_cmd (effective_dir dir_target cwd))).rc = 0 <;>
    by_cases h2 : (world (git_rev_parse_cmd (effective_dir dir_target cwd))).rc = 0 <;>
    simp [h1, h2]

/-- C4: because `get_cmd_output` passes `check=True` to
`subprocess.run`, every dictionary it returns has `rc = 0` and every
nonzero exit raises `CalledProcessError`; consequently
`current_git_commit` can never raise `NotAGitRepository` or
`GitUnexpectedError` (those branches test `rc != 0` on a returned
dictionary, which is impossible), and on a directory whose
`git describe` probe fails — e.g. one that is not a git repository — it
propagates the `CalledProcessError` instead. -/
theorem C4_check_true_semantics (world : String → CmdResult) :
    (∀ cmd r, get_cmd_output world cmd = Except.ok r → r.rc = 0) ∧
    (∀ cmd, (world cmd).rc ≠ 0 →
      get_cmd_output world cmd = Except.error (PyError.calledProcessError cmd (world cmd).rc)) ∧
    (∀ dir_target cwd d, current_git_commit world dir_target cwd ≠
      Except.error (PyError.notAGitRepository d)) ∧
    (∀ dir_target cwd msg d, current_git_commit world dir_target cwd ≠
      Except.error (PyError.gitUnexpectedError msg d)) ∧
    (∀ dir_target cwd, (world (git_describe_cmd (effective_dir dir_target cwd))).rc ≠ 0 →
      current_git_commit world dir_target cwd =
        Except.error (PyError.calledProcessError (git_describe_cmd (effective_dir dir_target cwd))
          (world (git_describe_cmd (effective_dir dir_target cwd))).rc)) := by
  refine ⟨?_, ?_, ?_, ?_, ?_⟩
  · intro cmd r h
    rw [get_cmd_output_eq] at h
    by_cases hrc : (world cmd).rc = 0
    · rw [if_pos hrc] at h
      injection h with h'
      rw [← h']
      exact hrc
    · rw [if_neg hrc] at h
      exact Except.noConfusion h
  · intro cmd hrc
    rw [get_cmd_output_eq, if_neg hrc]
  · intro dir_target cwd d
    rw [current_git_commit_eq]
    by_cases h1 : (world (git_describe_cmd (effective_dir dir_target cwd))).rc = 0 <;>
      by_cases h2 : (world (git_rev_parse_cmd (effective_dir dir_target cwd))).rc = 0 <;>
      simp [h1, h2]
  · intro dir_target cwd msg d
    rw [current_git_commit_eq]
    by_cases h1 : (world (git_describe_cmd (effective_dir dir_target cwd))).rc = 0 <;>
      by_cases h2 : (world (git_rev_parse_cmd (effective_dir dir_target cwd))).rc = 0 <;>
      simp [h1, h2]
  · intro dir_target cwd h
    rw [current_git_commit_eq, if_neg h]

/-- Witness for C4: under the everything-fails shell, probing a
directory propagates `CalledProcessError` from the `git describe`
call. -/
theorem C4_check_true_semantics_witness :
    current_git_commit worldFail "/repo" "/cwd" =
      Except.error (PyError.calledProcessError (git_describe_cmd "/repo") 1) :=
  (C4_check_true_semantics worldFail).2.2.2.2 "/repo" "/cwd" (by decide)

/-! ### Claim C5: lemmas about the attribute-list model -/

/-- `setattr` makes the attribute it wrote readable. -/
theorem getattr_setattr_self (row : Row) (a v : String) :
    getattr (setattr row a v) a = some v := by
  induction row with
  | nil => simp [setattr, getattr]
  | cons p rest ih =>
    by_cases h : p.1 = a
    · simp [setattr, getattr, h]
    · simp [setattr, getattr, h, ih]

/-- `setattr` leaves every other attribute alone. -/
theorem getattr_setattr_ne (row : Row) (a b v : String) (h : b ≠ a) :
    getattr (setattr row a v) b = getattr row b := by
  induction row with
  | nil => simp [setattr, getattr, h.symm]
  | cons p rest ih =>
    by_cases hp : p.1 = a
    · simp [setattr, getattr, hp, Ne.symm h]
    · simp [setattr, getattr, hp, ih]

/-- Setting a list of attributes leaves attributes outside it alone. -/
theorem getattr_apply_attrs_not_mem :
    ∀ (attrs : List (String × String)) (row : Row) (k : String),
      k ∉ attrs.map Prod.fst → getattr (apply_attrs row attrs) k = getattr row k := by
  intro attrs
  induction attrs with
  | nil => intro row k _; rfl
  | cons kv rest ih =>
    intro row k hk
    simp only [List.map_cons, List.mem_cons, not_or] at hk
    obtain ⟨hk1, hk2⟩ := hk
    show getattr (apply_attrs (setattr row kv.1 kv.2) rest) k = getattr row k
    rw [ih _ k hk2, getattr_setattr_ne _ _ _ _ hk1]

/-- With pairwise distinct attribute names, every attribute of the list
is readable back with its value after `apply_attrs`. -/
theorem getattr_apply_attrs_mem :
    ∀ (attrs : List (String × String)) (row : Row) (k v : String),
      (attrs.map Prod.fst).Nodup → (k, v) ∈ attrs →
      getattr (apply_attrs row attrs) k = some v := by
  intro attrs
  induction attrs with
  | nil => intro row k v _ hm; cases hm
  | cons kv rest ih =>
    intro row k v hnd hm
    rcases kv with ⟨a, w⟩
    simp only [List.map_cons, List.nodup_cons] at hnd
    obtain ⟨hnotin, hnd2⟩ := hnd
    show getattr (apply_attrs (setattr row a w) rest) k = some v
    rcases List.mem_cons.mp hm with h | h
    · rw [Prod.mk.injEq] at h
      obtain ⟨rfl, rfl⟩ := h
      rw [getattr_apply_attrs_not_mem rest _ k hnotin, getattr_setattr_self]
    · exact ih (setattr row a w) k v hnd2 h

/-- `apply_attrs` preserves the primary-key attribute provided the
attribute list never rebinds it to another value. -/
theorem getattr_apply_attrs_pk (row : Row) (attrs : List (String × String))
    (pkattr pkval : String) (hnd : (attrs.map Prod.fst).Nodup)
    (hpk : ∀ kv, kv ∈ attrs → kv.1 = pkattr → kv.2 = pkval)
    (h0 : getattr row pkattr = some pkval) :
    getattr (apply_attrs row attrs) pkattr = some pkval := by
  by_cases hmem : pkattr ∈ attrs.map Prod.fst
  · obtain ⟨kv, hkv, hfst⟩ := List.mem_map.mp hmem
    rcases kv with ⟨x, y⟩
    have hy : y = pkval := hpk (x, y) hkv hfst
    rw [show x = pkattr from hfst, hy] at hkv
    exact getattr_apply_attrs_mem attrs row pkattr pkval hnd hkv
  · rw [getattr_apply_attrs_not_mem attrs row pkattr hmem]
    exact h0

/-- Decomposition of the committed `UPDATE`: when the `SELECT` finds
`row0`, the table splits as `l1 ++ row0 :: l2` with no match in `l1`,
and `updateFirst` rewrites exactly that row. -/
theorem updateFirst_of_find? :
    ∀ (table : Table) (p : Row → Bool) (f : Row → Row) (row0 : Row),
      table.find? p = some row0 →
      ∃ l1 l2, table = l1 ++ row0 :: l2 ∧ (∀ x ∈ l1, p x = false) ∧
        updateFirst p f table = l1 ++ f row0 :: l2 := by
  intro table
  induction table with
  | nil => intro p f row0 h; cases h
  | cons r rs ih =>
    intro p f row0 h
    by_cases hp : p r = true
    · rw [List.find?_cons_of_pos _ hp] at h
      injection h with h2
      subst h2
      exact ⟨[], rs, by simp, by simp, by simp [updateFirst, hp]⟩
    · have hp2 : p r = false := by simpa using hp
      rw [List.find?_cons_of_neg _ (by simp [hp2])] at h
      obtain ⟨l1, l2, he, hall, hu⟩ := ih p f row0 h
      refine ⟨r :: l1, l2, by simp [he], ?_, ?_⟩
      · intro x hx
        rcases List.mem_cons.mp hx with rfl | hx
        · exact hp2
        · exact hall x hx
      · simp [updateFirst, hp2, hu]

/-- A one-row table used by the C5 witness. -/
def tableEx : Table := [[("id", "1"), ("x", "old")]]

/-- C5: `upsert_orm` emulates update-if-exists-else-insert with a
select-then-branch sequence.  Provided the table satisfies the
primary-key constraint (at most one row carries the key value), the
attribute names are pairwise distinct, and the attributes never rebind
the primary key to a different value, then after commit exactly one row
carries the primary-key value, that row holds every given attribute
value — the found row updated in place, or a freshly constructed
instance carrying the key and the attributes — and the primary-key
value of the affected row is returned. -/
theorem C5_upsert_orm (table : Table) (pkattr pkval : String)
    (attributes : List (String × String))
    (huniq : table.countP (pkMatches pkattr pkval) ≤ 1)
    (hnd : (attributes.map Prod.fst).Nodup)
    (hpk : ∀ kv, kv ∈ attributes → kv.1 = pkattr → kv.2 = pkval) :
    (upsert_orm table pkattr pkval attributes).1.countP (pkMatches pkattr pkval) = 1 ∧
    (∃ row, row ∈ (upsert_orm table pkattr pkval attributes).1 ∧
       getattr row pkattr = some pkval ∧
       ∀ kv, kv ∈ attributes → getattr row kv.1 = some kv.2) ∧
    (upsert_orm table pkattr pkval attributes).2 = some pkval := by
  rcases hfind : table.find? (pkMatches pkattr pkval) with _ | row0
  · -- INSERT branch: no row matches the primary key
    have hui : upsert_orm table pkattr pkval attributes =
        (table ++ [apply_attrs [(pkattr, pkval)] attributes],
         getattr (apply_attrs [(pkattr, pkval)] attributes) pkattr) := by
      unfold upsert_orm
      rw [hfind]
    have hcount0 : table.countP (pkMatches pkattr pkval) = 0 := by
      rw [List.countP_eq_zero]
      intro a ha
      exact List.find?_eq_none.mp hfind a ha
    have hinst : getattr (apply_attrs [(pkattr, pkval)] attributes) pkattr = some pkval :=
      getattr_apply_attrs_pk _ attributes pkattr pkval hnd hpk (by simp [getattr])
    rw [hui]
    refine ⟨?_, ⟨apply_attrs [(pkattr, pkval)] attributes, by simp, hinst, ?_⟩, hinst⟩
    · simp only [List.countP_append, hcount0, List.countP_cons, List.countP_nil]
      simp [pkMatches, hinst]
    · intro kv hkv
      rcases kv with ⟨k, v⟩
      exact getattr_apply_attrs_mem attributes _ k v hnd hkv
  · -- UPDATE branch: the SELECT found row0
    have hui : upsert_orm table pkattr pkval attributes =
        (updateFirst (pkMatches pkattr pkval) (fun r => apply_attrs r attributes) table,
         getattr (apply_attrs row0 attributes) pkattr) := by
      unfold upsert_orm
      rw [hfind]
    have hp0 : pkMatches pkattr pkval row0 = true := List.find?_some hfind
    have hrow0 : getattr row0 pkattr = some pkval := by
      simpa [pkMatches] using hp0
    obtain ⟨l1, l2, he, hall, hu⟩ :=
      updateFirst_of_find? table (pkMatches pkattr pkval)
        (fun r => apply_attrs r attributes) row0 hfind
    have hnew : getattr (apply_attrs row0 attributes) pkattr = some pkval :=
      getattr_apply_attrs_pk row0 attributes pkattr pkval hnd hpk hrow0
    have hpnew : pkMatches pkattr pkval (apply_attrs row0 attributes) = true := by
      simp [pkMatches, hnew]
    have hc1 : l1.countP (pkMatches pkattr pkval) = 0 := by
      rw [List.countP_eq_zero]
      intro a ha
      simp [hall a ha]
    have htc : table.countP (pkMatches pkattr pkval) =
        l2.countP (pkMatches pkattr pkval) + 1 := by
      rw [he, List.countP_append, hc1, List.countP_cons, if_pos hp0]
      omega
    have hc2 : l2.countP (pkMatches pkattr pkval) = 0 := by omega
    rw [hui]
    refine ⟨?_, ⟨apply_attrs row0 attributes, ?_, hnew, ?_⟩, hnew⟩
    · show (updateFirst (pkMatches pkattr pkval)
          (fun r => apply_attrs r attributes) table).countP (pkMatches pkattr pkval) = 1
      rw [hu, List.countP_append, hc1, List.countP_cons, hc2, if_pos hpnew]
    · show apply_attrs row0 attributes ∈
        updateFirst (pkMatches pkattr pkval) (fun r => apply_attrs r attributes) table
      rw [hu]
      simp
    · intro kv hkv
      rcases kv with ⟨k, v⟩
      exact getattr_apply_attrs_mem attributes _ k v hnd hkv

/-- Witness for C5: updating the `x` attribute of the existing row with
primary key `id = 1`. -/
theorem C5_upsert_orm_witness :
    (upsert_orm tableEx "id" "1" [("x", "new")]).1.countP (pkMatches "id" "1") = 1 ∧
    (upsert_orm tableEx "id" "1" [("x", "new")]).2 = some "1" := by
  have h := C5_upsert_orm tableEx "id" "1" [("x", "new")] (by decide) (by decide) (by decide)
  exact ⟨h.1, h.2.2⟩

/-! ### Claim C6 -/

/-- When no candidate location holds a readable file, the probing loop
falls through to `MissingConfigurationFile`. -/
theorem probe_locations_none (fs : FsEnv α) (fname : String) :
    ∀ locs : List String,
      locs.find? (fun d => (fs.readFile (joinPath d fname)).isSome) = none →
      probe_locations fs fname locs =
        Except.error (PyError.missingConfigurationFile "Configuration file not found" fname) := by
  intro locs
  induction locs with
  | nil => intro _; rfl
  | cons loc rest ih =>
    intro h
    by_cases hl : (fs.readFile (joinPath loc fname)).isSome = true
    · rw [@List.find?_cons_of_pos _ (fun d => (fs.readFile (joinPath d fname)).isSome)
        loc rest hl] at h
      exact Option.noConfusion h
    · have hnone : fs.readFile (joinPath loc fname) = none :=
        Option.not_isSome_iff_eq_none.mp hl
      rw [@List.find?_cons_of_neg _ (fun d => (fs.readFile (joinPath d fname)).isSome)
        loc rest hl] at h
      simp only [probe_locations]
      rw [hnone]
      exact ih h

/-- The first location with a readable candidate file decides the
result: a successful parse is returned, a failed parse raises
`BadConfigurationFile` right there, and later locations are never
consulted. -/
theorem probe_locations_some (fs : FsEnv α) (fname : String) :
    ∀ (locs : List String) (l contents : String),
      locs.find? (fun d => (fs.readFile (joinPath d fname)).isSome) = some l →
      fs.readFile (joinPath l fname) = some contents →
      (∀ cfg, fs.parseJson contents = some cfg →
         probe_locations fs fname locs = Except.ok cfg) ∧
      (fs.parseJson contents = none →
         probe_locations fs fname locs =
           Except.error (PyError.badConfigurationFile
             ("Failed to parse configuration file: " ++ joinPath l fname)
             (joinPath l fname))) := by
  intro locs
  induction locs with
  | nil => intro l contents h _; exact Option.noConfusion h
  | cons loc rest ih =>
    intro l contents h hcont
    by_cases hl : (fs.readFile (joinPath loc fname)).isSome = true
    · rw [@List.find?_cons_of_pos _ (fun d => (fs.readFile (joinPath d fname)).isSome)
        loc rest hl] at h
      injection h with h2
      subst h2
      have hstep : probe_locations fs fname (loc :: rest) =
          (match fs.parseJson contents with
           | some config => Except.ok config
           | none =>
             Except.error (PyError.badConfigurationFile
               ("Failed to parse configuration file: " ++ joinPath loc fname)
               (joinPath loc fname))) := by
        simp only [probe_locations]
        rw [hcont]
      constructor
      · intro cfg hp
        rw [hstep, hp]
      · intro hp
        rw [hstep, hp]
    · have hnone : fs.readFile (joinPath loc fname) = none :=
        Option.not_isSome_iff_eq_none.mp hl
      rw [@List.find?_cons_of_neg _ (fun d => (fs.readFile (joinPath d fname)).isSome)
        loc rest hl] at h
      have step : probe_locations fs fname (loc :: rest) = probe_locations fs fname rest := by
        simp only [probe_locations]
        rw [hnone]
      rw [step]
      exact ih l contents h hcont

/-- Concrete environment for the C6 witness: two existing directories,
one readable candidate file, and a parser accepting its content. -/
def fsEx : FsEnv Nat where
  isdir := fun d => d == "/cfg" || d == "/cwd"
  readFile := fun p => if p == "/cwd/app.json" then some "content" else none
  env := fun _ => none
  cwd := "/cwd"
  home := "/home/u"
  parseJson := fun s => if s == "content" then some 7 else none

/-- C6: `discover_config` probes the fixed candidate list — the explicit
`location` argument, the `{PREFIX}_CONFIG` environment directory, the
current working directory, the home directory,
`~/.local/share/{prefix}` and `/etc/{prefix}`, in that order, skipping
entries that are not existing directories (`config_locations`) — and the
first location whose candidate file is readable decides the outcome:
its parsed JSON is returned, a parse failure raises
`BadConfigurationFile` immediately without probing further locations,
and when no location yields a readable file `MissingConfigurationFile`
is raised. -/
theorem C6_discover_config (fs : FsEnv α) (name : String) (use_pref : Bool) (location : String) :
    ((config_locations fs name use_pref location).find?
        (fun d => (fs.readFile (joinPath d (fname_of name use_pref))).isSome) = none →
      discover_config fs name use_pref location =
        Except.error (PyError.missingConfigurationFile "Configuration file not found"
          (fname_of name use_pref))) ∧
    (∀ l contents,
      (config_locations fs name use_pref location).find?
        (fun d => (fs.readFile (joinPath d (fname_of name use_pref))).isSome) = some l →
      fs.readFile (joinPath l (fname_of name use_pref)) = some contents →
      (∀ cfg, fs.parseJson contents = some cfg →
         discover_config fs name use_pref location = Except.ok cfg) ∧
      (fs.parseJson contents = none →
         discover_config fs name use_pref location =
           Except.error (PyError.badConfigurationFile
             ("Failed to parse configuration file: " ++ joinPath l (fname_of name use_pref))
             (joinPath l (fname_of name use_pref))))) := by
  constructor
  · intro h
    exact probe_locations_none fs (fname_of name use_pref) _ h
  · intro l contents h hc
    exact probe_locations_some fs (fname_of name use_pref) _ l contents h hc

/-- Witness for C6: with `/cfg` holding no candidate file, discovery
moves on to the current working directory and returns the parsed
content found there. -/
theorem C6_discover_config_witness :
    discover_config fsEx "app.json" false "/cfg" = Except.ok 7 := by
  have h := (C6_discover_config fsEx "app.json" false "/cfg").2 "/cwd" "content"
    (by decide) (by decide)
  exact h.1 7 (by decide)

/-! ### Claim C7 -/

/-- The `try`/`except requests.RequestException` around `requests.get`:
whether or not the network answers, the function returns normally with
the one issued request. -/
theorem requests_get_any (net : String → Bool) (url : String) :
    (match requests_get net url with
     | Except.ok _ => Except.ok [url]
     | Except.error (PyError.requestException _) => Except.ok [url]
     | Except.error e => Except.error e) = (Except.ok [url] : Except PyError (List String)) := by
  unfold requests_get
  by_cases hn : net url = true
  · rw [if_pos hn]
  · rw [if_neg hn]

/-- C7: for every uuid and every status among the start, success
(empty status) and failure signals, `ping_healthchecks` issues exactly
one GET request, to `https://hc-ping.com/{uuid}` with the status
appended as a path segment when non-empty; and since the theorem holds
for every network behaviour `net` — including one on which the request
raises `requests.RequestException` — a failed request is logged rather
than raised. -/
theorem C7_ping_healthchecks (net : String → Bool) (uuid status : String)
    (h : status = "" ∨ status = "start" ∨ status = "fail") :
    ping_healthchecks net uuid status = Except.ok [hc_url_of uuid status] := by
  have key := requests_get_any net
  rcases h with h | h | h <;> subst h <;> simp only [ping_healthchecks] <;>
    rw [if_neg (by decide)] <;> exact key _

/-- Witness for C7 on a network that answers nothing: the `start` ping
still issues exactly one request to the status-suffixed URL and returns
normally. -/
theorem C7_ping_healthchecks_witness :
    ping_healthchecks (fun _ => false) "abc" "start" =
      Except.ok ["https://hc-ping.com/abc/start"] :=
  C7_ping_healthchecks (fun _ => false) "abc" "start" (Or.inr (Or.inl rfl))

/-! ### Claim C8 -/

/-- Credentials file reader for the C8 witness. -/
def readFEx : String → Option String :=
  fun p => if p == "/pg" then some " h:5432:db:u:pw\n" else none

/-- Reduction of `parse_pgpass` once the file read succeeded. -/
theorem parse_pgpass_some_eq (readF : String → Option String) (path contents : String)
    (h : readF path = some contents) :
    parse_pgpass readF path =
      (if contents.data.all (fun c => decide (c.toNat < 128)) then
         match pySplit ':' (pyStrip contents) with
         | [a, b, c, d, e] =>
           [("db_host", a), ("db_port", b), ("db_name", c), ("db_user", d), ("db_password", e)]
         | _ => []
       else []) := by
  unfold parse_pgpass
  rw [h]

/-- C8: `parse_pgpass` splits the stripped file content on colons; on
success it returns the dictionary with exactly the five keys `db_host`,
`db_port`, `db_name`, `db_user` and `db_password`, and on any failure —
unreadable file, non-ASCII content (the `ascii` codec raises
`UnicodeDecodeError`), or a field count different from five (tuple
unpacking raises `ValueError`) — the blanket handler logs the error and
returns the empty dictionary instead of raising. -/
theorem C8_parse_pgpass (readF : String → Option String) (path : String) :
    (readF path = none → parse_pgpass readF path = []) ∧
    (∀ contents, readF path = some contents →
      contents.data.all (fun c => decide (c.toNat < 128)) = false →
      parse_pgpass readF path = []) ∧
    (∀ contents, readF path = some contents →
      contents.data.all (fun c => decide (c.toNat < 128)) = true →
      (pySplit ':' (pyStrip contents)).length ≠ 5 →
      parse_pgpass readF path = []) ∧
    (∀ contents a b c d e, readF path = some contents →
      contents.data.all (fun c => decide (c.toNat < 128)) = true →
      pySplit ':' (pyStrip contents) = [a, b, c, d, e] →
      parse_pgpass readF path =
        [("db_host", a), ("db_port", b), ("db_name", c), ("db_user", d), ("db_password", e)]) := by
  refine ⟨?_, ?_, ?_, ?_⟩
  · intro h
    unfold parse_pgpass
    rw [h]
  · intro contents h hall
    rw [parse_pgpass_some_eq readF path contents h, if_neg (by simp [hall])]
  · intro contents h hall hlen
    rw [parse_pgpass_some_eq readF path contents h, if_pos hall]
    split
    next a2 b2 c2 d2 e2 heq =>
      exfalso
      apply hlen
      rw [heq]
      rfl
    next => rfl
  · intro contents a b c d e h hall hsplit
    rw [parse_pgpass_some_eq readF path contents h, if_pos hall, hsplit]

/-- Witness for C8: a well-formed five-field pgpass line with
surrounding whitespace parses into the five credential keys. -/
theorem C8_parse_pgpass_witness :
    parse_pgpass readFEx "/pg" =
      [("db_host", "h"), ("db_port", "5432"), ("db_name", "db"),
       ("db_user", "u"), ("db_password", "pw")] :=
  (C8_parse_pgpass readFEx "/pg").2.2.2 " h:5432:db:u:pw\n" "h" "5432" "db" "u" "pw"
    (by decide) (by decide) (by decide)

/-! ### Claim C9 -/

/-- Docker daemon for the C9 witness: it knows no image. -/
def daemonEx : String → Except DockerError Unit :=
  fun r => if r == "img:latest" then Except.error DockerError.imageNotFound else Except.ok ()

/-- C9: `image_exists` asks the daemon for `name:tag` — substituting the
tag `latest` when the given tag is empty — returns `True` when the
daemon knows the image, returns `False` exactly when the SDK raises
`ImageNotFound`, and lets every other SDK error propagate untranslated. -/
theorem C9_image_exists (daemon : String → Except DockerError Unit) (name tag : String) :
    (daemon (image_ref name tag) = Except.ok () → image_exists daemon name tag = Except.ok true) ∧
    (image_exists daemon name tag = Except.ok false ↔
      daemon (image_ref name tag) = Except.error DockerError.imageNotFound) ∧
    (∀ msg, daemon (image_ref name tag) = Except.error (DockerError.apiError msg) →
      image_exists daemon name tag = Except.error (DockerError.apiError msg)) ∧
    (tag = "" → image_ref name tag = name ++ ":" ++ "latest") := by
  refine ⟨?_, ?_, ?_, ?_⟩
  · intro h
    unfold image_exists
    rw [h]
  · rcases hd : daemon (image_ref name tag) with e | u
    · unfold image_exists
      rw [hd]
      cases e
      · simp
      · simp
    · unfold image_exists
      rw [hd]
      simp
  · intro msg h
    unfold image_exists
    rw [h]
  · intro h
    unfold image_ref
    rw [if_pos h]

/-- Witness for C9: with an empty tag the reference becomes
`img:latest`, and the daemon not knowing it yields `False`. -/
theorem C9_image_exists_witness :
    image_exists daemonEx "img" "" = Except.ok false :=
  (C9_image_exists daemonEx "img" "").2.1.mpr (by rfl)

/-! ### Claim C10 -/

/-- C10: with `work_magic=False`, no assignment to the local variable
`description` ever runs, so the f-string building the comment raises
`NameError`; the blanket `except Exception` handler catches it (as it
does a failing `os.stat`) and `make_path_comment` returns the empty
string — for every path, message, logger and size formatter. -/
theorem C10_make_path_comment_no_magic (statSize : String → Option Nat)
    (fmtSize : Nat → String) (magicRead : String → Option String)
    (path message callerName : String) (caller_funcname : Bool) :
    make_path_comment statSize fmtSize magicRead path message false caller_funcname
      callerName = "" := by
  unfold make_path_comment make_path_comment_try
  cases h : statSize path with
  | none => rfl
  | some n => rfl

end Corvus

